import Mathlib

/-!
Verification of the response-orchestration engine of the agent-bot
repository: the respond/no-respond decision policy, the thread-context
builder, the streaming publisher, the LLM orchestrator conversation loop,
and the simulated streaming backend.

The Go code is shallowly embedded: every external collaborator (chat
platform, LLM provider, tool clients) is a record of pure functions
(`Except`/`Option` model the Go `(value, error)` returns), and the mutable
`activeThreads` map is threaded through explicitly as a list of keys with
map-membership semantics.  Go byte strings are modelled as Lean `String`s
(character-level; the repository only manipulates them by concatenation,
containment and length, which agree on ASCII).
-/

/-- `matchHere pat s` holds when `pat` occurs at the head of `s`
(character lists). -/
def matchHere : List Char → List Char → Bool
  | [], _ => true
  | _ :: _, [] => false
  | p :: ps, c :: cs => p == c && matchHere ps cs

/-- `containsL pat s` holds when `pat` occurs somewhere inside `s`. -/
def containsL (pat : List Char) : List Char → Bool
  | [] => matchHere pat []
  | c :: rest => matchHere pat (c :: rest) || containsL pat rest

/-- Model of Go `strings.Contains(s, sub)`. -/
def strContains (s sub : String) : Bool :=
  containsL sub.data s.data

/-- Model of Go `strings.ToLower` (character-wise; agrees on ASCII). -/
def strToLower (s : String) : String :=
  String.mk (s.data.map Char.toLower)

/-- Model of Go `strings.ToUpper` (character-wise; agrees on ASCII). -/
def strToUpper (s : String) : String :=
  String.mk (s.data.map Char.toUpper)

/-- Model of Go `strings.TrimSpace`: drop whitespace from both ends. -/
def strTrim (s : String) : String :=
  String.mk (((s.data.dropWhile Char.isWhitespace).reverse.dropWhile Char.isWhitespace).reverse)

/-- Model of the Go `types.Message` record (a fetched chat post). -/
structure Message where
  ID : String
  UserID : String
  ChannelID : String
  ThreadID : String
  Content : String
  Timestamp : Int
deriving DecidableEq, Repr

/-- Model of the Go `types.User` record. -/
structure User where
  ID : String
  Username : String
  IsBot : Bool
deriving DecidableEq, Repr

/-- Model of the Go `types.PostedMessage` record (an incoming event). -/
structure PostedMessage where
  PostId : String
  UserId : String
  ThreadId : String
  ChannelId : String
  Message : String
  IsDM : Bool
deriving DecidableEq, Repr

/-- Model of the Go `types.ChatMessage` record (an outgoing message). -/
structure ChatMessage where
  ThreadId : String
  ChannelId : String
  Message : String
deriving DecidableEq, Repr

/-- The agent's identity fields from the Go `BotAgent` struct.  The mutable
`activeThreads` set is passed separately. -/
structure BotAgent where
  botUserID : String
  botUsername : String
  botDisplayName : String
deriving DecidableEq, Repr

/-- Pure oracle for the `types.Chat` collaborator: each method either
returns a value or fails, exactly as the Go interface returns
`(value, error)` pairs.  `Option.none` / `Except.error` model a non-nil
Go error. -/
structure ChatOracle where
  postMessage : ChatMessage → Except String Unit
  getMessage : String → Option Message
  getThreadMessages : String → Option (List Message)
  getUser : String → Option User

/-- Pure oracle for the decision (`types.LLM`) collaborator. -/
structure DecisionLLM where
  Prompt : String → Except String String

/-- Membership in the `activeThreads` map (Go `map[string]bool` lookup,
absent keys read as `false`). -/
def tsContains (ts : List String) (k : String) : Bool :=
  ts.contains k

/-- Insertion into the `activeThreads` map (`a.activeThreads[k] = true`);
idempotent, as map assignment is. -/
def tsInsert (ts : List String) (k : String) : List String :=
  if ts.contains k then ts else k :: ts

/-- The mention test of `shouldRespond` / `respondWithStream` /
`respondWithFallback`:
`strings.Contains(msg, "@"+username) || strings.Contains(msg, botUserID)`. -/
def isMentioned (a : BotAgent) (m : PostedMessage) : Bool :=
  strContains m.Message ("@" ++ a.botUsername) || strContains m.Message a.botUserID

/-- Embedding of `shouldRespondInThreadFallback`: the local heuristic over
the lower-cased message text.  `String.length` counts characters where Go
counts bytes; the two agree on the ASCII texts this bot manipulates. -/
def shouldRespondInThreadFallback (m : PostedMessage) : Bool :=
  let msg := strToLower m.Message
  if strContains msg "?" then true
  else if ["how", "what", "when", "where", "why", "who", "can you",
      "could you", "would you", "do you"].any (fun w => strContains msg w) then true
  else if msg.length < 10 || strContains msg "lol" || strContains msg "haha" then false
  else true

/-- The effective thread root used by `getThreadContext`: the message's
own id when it is not yet threaded. -/
def rootOf (m : PostedMessage) : String :=
  if m.ThreadId = "" then m.PostId else m.ThreadId

/-- One outer iteration of the pairwise-exchange sort in
`getThreadContext`: sweep the carried element `x` through the tail,
swapping whenever the carried timestamp is strictly greater; returns the
final carried minimum and the rewritten tail. -/
def sweep (x : Message) : List Message → Message × List Message
  | [] => (x, [])
  | y :: ys =>
    if x.Timestamp > y.Timestamp then
      let p := sweep y ys
      (p.1, x :: p.2)
    else
      let p := sweep x ys
      (p.1, y :: p.2)

/-- The nested-loop exchange sort of `getThreadContext`, with fuel equal
to the list length (each outer iteration fixes one position). -/
def exchangeSortAux : Nat → List Message → List Message
  | 0, l => l
  | _ + 1, [] => []
  | n + 1, x :: xs =>
    let p := sweep x xs
    p.1 :: exchangeSortAux n p.2

/-- The `for i / for j` timestamp sort of `getThreadContext`. -/
def exchangeSort (l : List Message) : List Message :=
  exchangeSortAux l.length l

/-- Speaker resolution for a replayed post in `getThreadContext`: lookup
failure wins over the bot-identity check, then the bot maps to its display
name, any other user to their username. -/
def postSpeaker (a : BotAgent) (c : ChatOracle) (p : Message) : String :=
  match c.getUser p.UserID with
  | none => "Unknown User"
  | some u => if p.UserID == a.botUserID then a.botDisplayName else u.Username

/-- The replay loop of `getThreadContext`: one `speaker: content` line per
post, skipping the triggering post. -/
def contextLines (a : BotAgent) (c : ChatOracle) (trigId : String) : List Message → String
  | [] => ""
  | p :: ps =>
    if p.ID == trigId then contextLines a c trigId ps
    else postSpeaker a c p ++ ": " ++ p.Content ++ "\n" ++ contextLines a c trigId ps

/-- The trailing trigger-message line of `getThreadContext` under its own
resolved speaker label (the agent's identity plays no role here). -/
def triggerLine (c : ChatOracle) (m : PostedMessage) : String :=
  if m.UserId != "" then
    match c.getUser m.UserId with
    | none => "\n" ++ "User" ++ ": " ++ m.Message
    | some u => "\n" ++ u.Username ++ ": " ++ m.Message
  else "\n" ++ "User" ++ ": " ++ m.Message

/-- Embedding of `getThreadContext`: returns the assembled transcript and
the (always-nil) error result, exactly as the Go function's two return
values. -/
def getThreadContext (a : BotAgent) (c : ChatOracle) (m : PostedMessage) :
    String × Option String :=
  match c.getThreadMessages (rootOf m) with
  | none => (m.Message, none)
  | some posts =>
    ("Previous conversation context:\n\n" ++
      contextLines a c m.PostId (exchangeSort posts) ++ triggerLine c m, none)

/-- The judgment prompt assembled by `shouldRespondInThreadLLM`
(`fmt.Sprintf` template with context, username and display name spliced
in). -/
def decisionPromptText (a : BotAgent) (ctx : String) : String :=
  "You are a chat bot assistant. Based on this conversation context, should you respond to the latest message?\n\nContext:\n"
    ++ ctx
    ++ "\n\nYour bot username is \"" ++ a.botUsername
    ++ "\" and display name is \"" ++ a.botDisplayName
    ++ "\".\n\nRespond with ONLY \"YES\" if you should respond (if the message is:\n- A direct question to anyone\n- Asking for help or information\n- Continuing a conversation you\x27re already part of\n- Requesting an action or task\n\nRespond with ONLY \"NO\" if you should not respond (if the message is:\n- Casual conversation between others\n- Off-topic chatter\n- Simple acknowledgments like \"ok\", \"thanks\", \"lol\"\n- Private conversation between specific people\n\nAnswer:"

/-- Embedding of `shouldRespondInThreadLLM`: build the thread context
(falling back to the heuristic on a context error), ask the decision LLM
(falling back to the heuristic on an LLM error), and otherwise return
whether the upper-cased, trimmed reply contains "YES". -/
def shouldRespondInThreadLLM (a : BotAgent) (c : ChatOracle) (dllm : DecisionLLM)
    (m : PostedMessage) : Bool :=
  let r := getThreadContext a c m
  match r.2 with
  | some _ => shouldRespondInThreadFallback m
  | none =>
    match dllm.Prompt (decisionPromptText a r.1) with
    | .error _ => shouldRespondInThreadFallback m
    | .ok response => strContains (strTrim (strToUpper response)) "YES"

/-- Embedding of `shouldRespond`: mention/DM first, then the active-thread
judgment, else no response. -/
def shouldRespond (a : BotAgent) (c : ChatOracle) (dllm : DecisionLLM)
    (ts : List String) (m : PostedMessage) : Bool :=
  if isMentioned a m || m.IsDM then true
  else if tsContains ts m.ThreadId && m.ThreadId != "" then
    shouldRespondInThreadLLM a c dllm m
  else false

example : strContains "hello world" "lo w" = true := by decide
example : strContains "hello" "z" = false := by decide

/-- Model of `types.StreamChunk`. -/
structure StreamChunk where
  Content : String
  Done : Bool
  Error : Option String
deriving DecidableEq, Repr

/-- Pure oracle for the streaming-capable `types.LLM` collaborator of the
agent: `Prompt` is the synchronous call, `PromptStream` either fails to
start or yields the chunk sequence the channel will deliver. -/
structure LLMOracle where
  Prompt : String → Except String String
  PromptStream : String → Except String (List StreamChunk)

/-- The apology text substituted by `respondWithFallback` when the LLM
call fails. -/
def apologyText : String :=
  "I\x27m sorry, I\x27m having trouble processing your request right now. Please try again later."

/-- The markdown placeholder posted by `respondWithStream` before any
model output exists. -/
def thinkingText : String := "_Thinking..._"

/-- `canCreateThread`: the root post must be fetchable. -/
def canCreateThread (c : ChatOracle) (postID : String) : Bool :=
  (c.getMessage postID).isSome

/-- The shared thread bookkeeping of `respondWithStream` and
`respondWithFallback`: pick the outgoing thread id and mutate
`activeThreads`, before the message is posted.  Returns the message to
post and the new thread set. -/
def assignThread (a : BotAgent) (c : ChatOracle) (ts : List String)
    (m : PostedMessage) (base : ChatMessage) : ChatMessage × List String :=
  if m.ThreadId != "" then
    ({ base with ThreadId := m.ThreadId }, tsInsert ts m.ThreadId)
  else if strContains m.Message ("@" ++ a.botUsername) || strContains m.Message a.botUserID then
    if canCreateThread c m.PostId then
      ({ base with ThreadId := m.PostId }, tsInsert ts m.PostId)
    else (base, ts)
  else (base, ts)

/-- Embedding of `respondWithFallback`: returns the resulting
`activeThreads` set, the message it attempted to post, and whether the
post succeeded. -/
def respondWithFallback (a : BotAgent) (llm : LLMOracle) (c : ChatOracle)
    (ts : List String) (m : PostedMessage) (prompt : String) :
    List String × ChatMessage × Bool :=
  let response :=
    match llm.Prompt prompt with
    | .ok r => r
    | .error _ => apologyText
  let base : ChatMessage := { ThreadId := "", ChannelId := m.ChannelId, Message := response }
  let pair := assignThread a c ts m base
  match c.postMessage pair.1 with
  | .ok _ => (pair.2, pair.1, true)
  | .error _ => (pair.2, pair.1, false)

/-- Embedding of the state effect of `respondWithStream` on
`activeThreads`: stream-start failure and message-id-recovery failure both
degrade to `respondWithFallback`; the thread bookkeeping happens before
the initial placeholder post, and a failed post returns with the set
already mutated. -/
def respondWithStream (a : BotAgent) (llm : LLMOracle) (c : ChatOracle)
    (ts : List String) (m : PostedMessage) (prompt : String) : List String :=
  match llm.PromptStream prompt with
  | .error _ => (respondWithFallback a llm c ts m prompt).1
  | .ok _ =>
    let base : ChatMessage := { ThreadId := "", ChannelId := m.ChannelId, Message := thinkingText }
    let pair := assignThread a c ts m base
    match c.postMessage pair.1 with
    | .error _ => pair.2
    | .ok _ =>
      match c.getThreadMessages pair.1.ThreadId with
      | some threadMessages =>
        if threadMessages.length > 0 then pair.2
        else (respondWithFallback a llm c pair.2 m prompt).1
      | none => (respondWithFallback a llm c pair.2 m prompt).1

/-- The error annotation appended to the buffer by `processStream` on an
error delta. -/
def errorAnnotation : String := "\n\n_Error: Failed to complete response_"

/-- The cancellation annotation appended by `processStream` when the
context is cancelled. -/
def cancelAnnotation : String := "\n\n_Response cancelled_"

/-- The substitute content of `finalizeStreamResponse` for an empty
buffer. -/
def noResponseText : String := "_No response generated_"

/-- The content `finalizeStreamResponse` writes into the placeholder. -/
def finalizeContent (s : String) : String :=
  if s = "" then noResponseText else s

/-- One observable event of the `processStream` select loop: a delivered
chunk, the channel closing, a ticker tick (carrying the current time in
seconds), or context cancellation. -/
inductive StreamEvent where
  | chunk : StreamChunk → StreamEvent
  | closed : StreamEvent
  | tick : Nat → StreamEvent
  | cancel : StreamEvent
deriving DecidableEq, Repr

/-- A chat write attempted by the streaming session — a periodic
`UpdateMessage` or the terminal `finalizeStreamResponse` update — together
with the delivery outcome the chat transport returned for it (`true` for a
nil error).  Go only logs a failed update, so the attempt is recorded
either way. -/
inductive StreamCall where
  | update : String → Bool → StreamCall
  | finalize : String → Bool → StreamCall
deriving DecidableEq, Repr

/-- Embedding of the `processStream` select loop as a fold over its event
sequence.  State: the accumulated buffer, the last-successful-flush time
(in seconds), and the count `k` of `UpdateMessage` calls attempted so far;
`upd k` is the transport's outcome for the k-th call.  On a tick, an
update with the full current buffer is attempted when at least the
1-second interval elapsed since the last successful flush and the buffer
is non-empty; `lastUpdate` advances only when the update delivers
(`else` branch of the Go error check), so a failed update is retried on
the next due tick.  Error deltas and cancellation append their annotations
before the terminal flush, whose own `UpdateMessage` outcome is likewise
recorded. -/
def processStreamRun (upd : Nat → Bool) (buffer : String) (lastUpdate k : Nat) :
    List StreamEvent → List StreamCall
  | [] => []
  | StreamEvent.closed :: _ => [StreamCall.finalize (finalizeContent buffer) (upd k)]
  | StreamEvent.chunk ch :: rest =>
    if ch.Error.isSome then
      [StreamCall.finalize (finalizeContent (buffer ++ errorAnnotation)) (upd k)]
    else if ch.Done then
      [StreamCall.finalize (finalizeContent buffer) (upd k)]
    else
      processStreamRun upd (if ch.Content != "" then buffer ++ ch.Content else buffer)
        lastUpdate k rest
  | StreamEvent.tick now :: rest =>
    if lastUpdate + 1 ≤ now ∧ 0 < buffer.length then
      StreamCall.update buffer (upd k) ::
        (if upd k then processStreamRun upd buffer now (k + 1) rest
         else processStreamRun upd buffer lastUpdate (k + 1) rest)
    else
      processStreamRun upd buffer lastUpdate k rest
  | StreamEvent.cancel :: _ =>
    [StreamCall.finalize (finalizeContent (buffer ++ cancelAnnotation)) (upd k)]

/-- `processStream` starting from the empty buffer, with `lastUpdate`
initialized to the session start time and no calls attempted yet. -/
def processStream (upd : Nat → Bool) (events : List StreamEvent) (start : Nat) :
    List StreamCall :=
  processStreamRun upd "" start 0 events

/-- A terminal event: channel close, cancellation, or an error/done
chunk — the cases on which `processStream` returns. -/
def isTerminalEvent : StreamEvent → Bool
  | StreamEvent.closed => true
  | StreamEvent.cancel => true
  | StreamEvent.chunk ch => ch.Error.isSome || ch.Done
  | StreamEvent.tick _ => false

/-- The placeholder message's content after a sequence of chat writes: a
delivered write fully replaces the content, a failed write leaves it
unchanged (Go only logs the `UpdateMessage` error). -/
def applyCalls (init : String) (calls : List StreamCall) : String :=
  calls.foldl
    (fun cur call =>
      match call with
      | StreamCall.update s true => s
      | StreamCall.update _ false => cur
      | StreamCall.finalize s true => s
      | StreamCall.finalize _ false => cur)
    init

/-- The finalize content dictated by the delta sequence alone (ticks are
irrelevant to it): the buffer accumulated up to the first terminal event,
with the annotation that event demands. -/
def terminalContent (buffer : String) : List StreamEvent → Option String
  | [] => none
  | StreamEvent.closed :: _ => some (finalizeContent buffer)
  | StreamEvent.chunk ch :: rest =>
    if ch.Error.isSome then some (finalizeContent (buffer ++ errorAnnotation))
    else if ch.Done then some (finalizeContent buffer)
    else terminalContent (if ch.Content != "" then buffer ++ ch.Content else buffer) rest
  | StreamEvent.tick _ :: rest => terminalContent buffer rest
  | StreamEvent.cancel :: _ => some (finalizeContent (buffer ++ cancelAnnotation))

/-- One content block of an Anthropic response, as discriminated by the
`block.AsAny()` switch in `Prompt`: plain text, a client-dispatched tool
use (id, name, input), a server-executed MCP tool use (name, server), or
any other block kind. -/
inductive ContentBlock where
  | text : String → ContentBlock
  | toolUse : String → String → String → ContentBlock
  | mcpToolUse : String → String → ContentBlock
  | other : ContentBlock
deriving DecidableEq, Repr

/-- Pure oracle for the tool dispatch of `Prompt`: the entire
`switch content.Name` block (Asana client calls, error-to-string
conversion, JSON marshalling) collapsed to a function from tool name and
input to the result string fed back to the model. -/
structure ToolOracle where
  run : String → String → String

/-- The text extraction of the first block pass of `Prompt`:
`finalResult.WriteString(text)` for each `BetaTextBlock`, in block
order. -/
def textsOf (blocks : List ContentBlock) : String :=
  blocks.foldl
    (fun s b =>
      match b with
      | ContentBlock.text t => s ++ t
      | _ => s)
    ""

/-- The `toolResults` list built by the second block pass of `Prompt`: one
`(id, result)` entry per `BetaToolUseBlock`; MCP tool-use blocks are
executed by the API and contribute no entry. -/
def toolResultsOf (tools : ToolOracle) (blocks : List ContentBlock) :
    List (String × String) :=
  blocks.foldl
    (fun acc b =>
      match b with
      | ContentBlock.toolUse id name input => acc ++ [(id, tools.run name input)]
      | _ => acc)
    []

/-- The fixed fallback phrase `Prompt` returns when no text block was ever
emitted. -/
def promptFallbackText : String :=
  "I received your message and processed it with Claude, but no text content was returned."

/-- The post-loop substitution of `Prompt` for an empty accumulated
reply. -/
def finalizePromptResult (r : String) : String :=
  if r = "" then promptFallbackText else r

/-- Outcome of the `Prompt` conversation loop.  `exhausted` marks a round
trace shorter than the run needs — it has no Go counterpart (the API
always answers) and never arises in the theorems below. -/
inductive PromptOutcome where
  | ok : String → PromptOutcome
  | apiError : String → PromptOutcome
  | exhausted : PromptOutcome
deriving DecidableEq, Repr

/-- Embedding of the tool-use conversation loop of `Prompt`.  The API is
an oracle trace: one `Except`-response per round, consumed in order.  Each
round appends its text blocks to the accumulator; the loop repeats exactly
when the round's `toolResults` list is non-empty, and an API error aborts
with the wrapped error. -/
def promptLoop (tools : ToolOracle) (acc : String) :
    List (Except String (List ContentBlock)) → PromptOutcome
  | [] => PromptOutcome.exhausted
  | Except.error e :: _ => PromptOutcome.apiError ("anthropic API error: " ++ e)
  | Except.ok blocks :: rest =>
    let acc2 := acc ++ textsOf blocks
    if (toolResultsOf tools blocks).length = 0 then
      PromptOutcome.ok (finalizePromptResult acc2)
    else promptLoop tools acc2 rest

/-- Embedding of `AnthropicBackend.Prompt` over a round trace. -/
def Prompt (tools : ToolOracle)
    (rounds : List (Except String (List ContentBlock))) : PromptOutcome :=
  promptLoop tools "" rounds

/-- The 10-character slicing loop of `PromptStream`
(`for i := 0; i < len(response); i += chunkSize`), with fuel: each
iteration consumes at least one character, so fuel equal to the length
suffices. -/
def chunks10Aux : Nat → List Char → List (List Char)
  | 0, _ => []
  | _ + 1, [] => []
  | n + 1, c :: cs => ((c :: cs).take 10) :: chunks10Aux n ((c :: cs).drop 10)

/-- The ≤10-character pieces of a character list, in order. -/
def chunks10 (l : List Char) : List (List Char) :=
  chunks10Aux l.length l

/-- Embedding of the chunk sequence `PromptStream`'s goroutine sends on an
uncancelled run, as a function of the underlying `Prompt` outcome: on an
LLM failure a single terminal error chunk; otherwise the ≤10-character
content pieces in order followed by the terminal done chunk. -/
def promptStreamChunks (llmResult : Except String String) : List StreamChunk :=
  match llmResult with
  | Except.error e => [{ Content := "", Done := true, Error := some ("API error: " ++ e) }]
  | Except.ok response =>
    (chunks10 response.data).map
      (fun piece => { Content := String.mk piece, Done := false, Error := none })
      ++ [{ Content := "", Done := true, Error := none }]

/-- Right-fold string concatenation, used to state transcript and chunk
concatenations. -/
def joinStrings : List String → String
  | [] => ""
  | s :: rest => s ++ joinStrings rest

/-- The concatenation of the plain-text segments of a sequence of rounds,
in order. -/
def textsConcat : List (List ContentBlock) → String
  | [] => ""
  | bs :: rest => textsOf bs ++ textsConcat rest

/-- The reference fallback heuristic exactly as the claim words it, over a
bare message text. -/
def fallbackHeuristicSpec (text : String) : Bool :=
  let msg := strToLower text
  if strContains msg "?" then true
  else if ["how", "what", "when", "where", "why", "who", "can you",
      "could you", "would you", "do you"].any (fun w => strContains msg w) then true
  else if msg.length < 10 || strContains msg "lol" || strContains msg "haha" then false
  else true

/-- The net effect of one response-path execution on `activeThreads`:
insert the thread root when the message is threaded, else insert the post
id when the bot is mentioned and the root post is accessible, else leave
the set unchanged.  (Characterization used by the amended C5 theorem: in
the code this mutation precedes the post attempt.) -/
def threadInsertResult (a : BotAgent) (c : ChatOracle) (ts : List String)
    (m : PostedMessage) : List String :=
  if m.ThreadId != "" then tsInsert ts m.ThreadId
  else if strContains m.Message ("@" ++ a.botUsername) || strContains m.Message a.botUserID then
    if canCreateThread c m.PostId then tsInsert ts m.PostId else ts
  else ts

/-- Concrete fixture: an agent identity used by witnesses and
counterexamples. -/
def wAgent : BotAgent :=
  { botUserID := "bot42", botUsername := "agent", botDisplayName := "Agent" }

/-- Concrete fixture: a post with timestamp 2, fetched first. -/
def pA : Message :=
  { ID := "a", UserID := "u1", ChannelID := "ch", ThreadID := "r",
    Content := "hey", Timestamp := 2 }

/-- Concrete fixture: a post with the same timestamp 2, fetched second. -/
def pB : Message :=
  { ID := "b", UserID := "u1", ChannelID := "ch", ThreadID := "r",
    Content := "hi", Timestamp := 2 }

/-- Concrete fixture: a post with the smaller timestamp 1, fetched
third. -/
def pC : Message :=
  { ID := "c", UserID := "u1", ChannelID := "ch", ThreadID := "r",
    Content := "yo", Timestamp := 1 }

/-- Concrete fixture: a chat whose thread fetch returns the three posts
above and whose user lookup resolves everyone to "alice". -/
def wChatABC : ChatOracle :=
  { postMessage := fun _ => Except.ok ()
    getMessage := fun _ => none
    getThreadMessages := fun _ => some [pA, pB, pC]
    getUser := fun _ => some { ID := "u1", Username := "alice", IsBot := false } }

/-- Concrete fixture: a chat whose thread fetch always fails. -/
def wChatFail : ChatOracle :=
  { postMessage := fun _ => Except.error "post failed"
    getMessage := fun _ => none
    getThreadMessages := fun _ => none
    getUser := fun _ => none }

/-- Concrete fixture: a chat with an empty thread and a resolvable
user. -/
def wChatEmpty : ChatOracle :=
  { postMessage := fun _ => Except.ok ()
    getMessage := fun _ => none
    getThreadMessages := fun _ => some []
    getUser := fun _ => some { ID := "u1", Username := "alice", IsBot := false } }

/-- Concrete fixture: the triggering message for the transcript
counterexample. -/
def wMsgTrigger : PostedMessage :=
  { PostId := "t", UserId := "u1", ThreadId := "r", ChannelId := "ch",
    Message := "trigger", IsDM := false }

/-- Concrete fixture: the "thanks!" scenario message. -/
def wMsgThanks : PostedMessage :=
  { PostId := "p", UserId := "u1", ThreadId := "r", ChannelId := "ch",
    Message := "thanks!", IsDM := false }

/-- Concrete fixture: a question message inside an active thread. -/
def wMsgHow : PostedMessage :=
  { PostId := "p", UserId := "u1", ThreadId := "r", ChannelId := "ch",
    Message := "how are you?", IsDM := false }

/-- Concrete fixture: a message mentioning the bot. -/
def wMsgMention : PostedMessage :=
  { PostId := "p", UserId := "u1", ThreadId := "", ChannelId := "ch",
    Message := "hi @agent", IsDM := false }

/-- Concrete fixture: a direct message with neutral text. -/
def wMsgDM : PostedMessage :=
  { PostId := "p", UserId := "u1", ThreadId := "", ChannelId := "ch",
    Message := "status report please", IsDM := true }

/-- Concrete fixture: a plain channel message: no mention, no DM, no
thread. -/
def wMsgPlain : PostedMessage :=
  { PostId := "p", UserId := "u1", ThreadId := "", ChannelId := "ch",
    Message := "nothing in particular", IsDM := false }

/-- Concrete fixture: an already-threaded message for the response-path
counterexample. -/
def wMsgThreaded : PostedMessage :=
  { PostId := "p1", UserId := "u1", ThreadId := "t1", ChannelId := "ch",
    Message := "hello there friend", IsDM := false }

/-- Concrete fixture: a judge that always answers "NO". -/
def wJudgeNo : DecisionLLM := { Prompt := fun _ => Except.ok "NO" }

/-- Concrete fixture: a judge whose transport always fails. -/
def wJudgeErr : DecisionLLM := { Prompt := fun _ => Except.error "transport down" }

/-- Concrete fixture: a judge that always answers "yes" in lower case. -/
def wJudgeYes : DecisionLLM := { Prompt := fun _ => Except.ok " yes " }

/-- Concrete fixture: an LLM whose synchronous and streaming calls both
succeed. -/
def wLLMok : LLMOracle :=
  { Prompt := fun _ => Except.ok "reply text"
    PromptStream := fun _ => Except.ok [] }

/-- Concrete fixture: a tool oracle returning a constant result. -/
def wTools : ToolOracle := { run := fun _ _ => "ok" }



/-! ## Helper lemmas -/

/-- String append with an empty right operand. -/
theorem strAppendNil (s : String) : s ++ "" = s := by
  cases s with
  | mk d => show String.mk (d ++ []) = String.mk d
            rw [List.append_nil]

/-- String append is associative. -/
theorem strAppendAssoc (s t u : String) : s ++ t ++ u = s ++ (t ++ u) := by
  cases s with
  | mk a =>
    cases t with
    | mk b =>
      cases u with
      | mk c => show String.mk (a ++ b ++ c) = String.mk (a ++ (b ++ c))
                rw [List.append_assoc]

/-- `getThreadContext` never surfaces an error: both its branches return a
nil error value. -/
theorem getThreadContext_error_none (a : BotAgent) (c : ChatOracle)
    (m : PostedMessage) : (getThreadContext a c m).2 = none := by
  unfold getThreadContext
  cases c.getThreadMessages (rootOf m) <;> rfl

/-! ## C7: the fallback heuristic -/

/-- C7: `shouldRespondInThreadFallback` equals the claim's reference
definition on every message text — containment of "?", then the fixed
interrogative markers, then the short/casual rejection, then the default
of responding — and in particular returns `false` on the input
"thanks!". -/
theorem c7_fallback_heuristic :
    (∀ m : PostedMessage, shouldRespondInThreadFallback m = fallbackHeuristicSpec m.Message) ∧
    shouldRespondInThreadFallback wMsgThanks = false :=
  ⟨fun _ => rfl, by decide⟩

/-! ## C1: the decision policy -/

/-- C1: `shouldRespond` follows the strict precedence policy: a mention
(the "@"-prefixed handle or the raw bot user id in the text) forces
`true`; the direct-message flag forces `true`; failing both, a non-empty
thread id in the active set yields the thread-judgment result; in every
other case the answer is `false`. -/
theorem c1_decision_policy (a : BotAgent) (c : ChatOracle) (dllm : DecisionLLM)
    (ts : List String) (m : PostedMessage) :
    (isMentioned a m = true → shouldRespond a c dllm ts m = true) ∧
    (m.IsDM = true → shouldRespond a c dllm ts m = true) ∧
    (isMentioned a m = false → m.IsDM = false → tsContains ts m.ThreadId = true →
      m.ThreadId ≠ "" →
      shouldRespond a c dllm ts m = shouldRespondInThreadLLM a c dllm m) ∧
    (isMentioned a m = false → m.IsDM = false →
      (tsContains ts m.ThreadId = false ∨ m.ThreadId = "") →
      shouldRespond a c dllm ts m = false) := by
  refine ⟨?_, ?_, ?_, ?_⟩
  · intro h
    simp [shouldRespond, h]
  · intro h
    simp [shouldRespond, h]
  · intro h1 h2 h3 h4
    simp [shouldRespond, h1, h2, h3, bne_iff_ne, h4]
  · intro h1 h2 h3
    rcases h3 with h3 | h3 <;> simp [shouldRespond, h1, h2, h3]

/-- Witness for C1: each branch of the policy evaluated at a concrete
message. -/
theorem c1_decision_policy_witness :
    shouldRespond wAgent wChatEmpty wJudgeNo [] wMsgMention = true ∧
    shouldRespond wAgent wChatEmpty wJudgeNo [] wMsgDM = true ∧
    shouldRespond wAgent wChatEmpty wJudgeNo ["r"] wMsgHow =
      shouldRespondInThreadLLM wAgent wChatEmpty wJudgeNo wMsgHow ∧
    shouldRespond wAgent wChatEmpty wJudgeNo [] wMsgPlain = false :=
  ⟨(c1_decision_policy wAgent wChatEmpty wJudgeNo [] wMsgMention).1 (by decide),
   (c1_decision_policy wAgent wChatEmpty wJudgeNo [] wMsgDM).2.1 (by decide),
   (c1_decision_policy wAgent wChatEmpty wJudgeNo ["r"] wMsgHow).2.2.1
     (by decide) (by decide) (by decide) (by decide),
   (c1_decision_policy wAgent wChatEmpty wJudgeNo [] wMsgPlain).2.2.2
     (by decide) (by decide) (Or.inl (by decide))⟩

/-! ## C8: degraded transcript on fetch failure -/

/-- C8: when the thread fetch fails, `getThreadContext` returns the bare
trigger-message text and a nil error. -/
theorem c8_degraded_transcript (a : BotAgent) (c : ChatOracle) (m : PostedMessage)
    (h : c.getThreadMessages (rootOf m) = none) :
    getThreadContext a c m = (m.Message, none) := by
  unfold getThreadContext
  rw [h]

/-- Witness for C8: a concrete chat whose fetch fails. -/
theorem c8_degraded_transcript_witness :
    getThreadContext wAgent wChatFail wMsgThanks = ("thanks!", none) :=
  c8_degraded_transcript wAgent wChatFail wMsgThanks rfl

/-! ## C3: parsing the judge reply -/

/-- Counterexample to C3: with an active-thread question "how are you?"
and a judge that replies "NO", `shouldRespondInThreadLLM` answers `false`
directly, while the local heuristic would answer `true` — so a non-YES
judge reply does NOT fall back to the heuristic. -/
theorem c3_counterexample :
    shouldRespondInThreadLLM wAgent wChatEmpty wJudgeNo wMsgHow = false ∧
    shouldRespondInThreadFallback wMsgHow = true ∧
    shouldRespondInThreadLLM wAgent wChatEmpty wJudgeNo wMsgHow ≠
      shouldRespondInThreadFallback wMsgHow := by
  refine ⟨by decide, by decide, by decide⟩

/-- C3 (amended): the judge reply is parsed case-insensitively (upper-case
then trim) for containment of "YES" and that containment is returned
directly — a non-YES reply yields `false`, not the heuristic — while a
transport/LLM failure of the judge call falls back to
`shouldRespondInThreadFallback`.  (The context-error fallback branch is
dead: `getThreadContext` never returns an error.) -/
theorem c3_judge_parse_amended (a : BotAgent) (c : ChatOracle)
    (dllm : DecisionLLM) (m : PostedMessage) :
    (∀ resp, dllm.Prompt (decisionPromptText a (getThreadContext a c m).1) = Except.ok resp →
      shouldRespondInThreadLLM a c dllm m = strContains (strTrim (strToUpper resp)) "YES") ∧
    (∀ e, dllm.Prompt (decisionPromptText a (getThreadContext a c m).1) = Except.error e →
      shouldRespondInThreadLLM a c dllm m = shouldRespondInThreadFallback m) := by
  constructor
  · intro resp h
    simp only [shouldRespondInThreadLLM, getThreadContext_error_none, h]
  · intro e h
    simp only [shouldRespondInThreadLLM, getThreadContext_error_none, h]

/-- Witness for C3 (amended): a lower-case " yes " reply is accepted after
upper-casing and trimming, and a transport failure falls back to the
heuristic. -/
theorem c3_judge_parse_amended_witness :
    shouldRespondInThreadLLM wAgent wChatEmpty wJudgeYes wMsgThanks =
      strContains (strTrim (strToUpper " yes ")) "YES" ∧
    shouldRespondInThreadLLM wAgent wChatEmpty wJudgeErr wMsgThanks =
      shouldRespondInThreadFallback wMsgThanks :=
  ⟨(c3_judge_parse_amended wAgent wChatEmpty wJudgeYes wMsgThanks).1 " yes " rfl,
   (c3_judge_parse_amended wAgent wChatEmpty wJudgeErr wMsgThanks).2 "transport down" rfl⟩

/-! ## C2: transcript ordering -/

/-- A sweep rewrites the tail without changing its length. -/
theorem sweep_length (x : Message) (l : List Message) :
    (sweep x l).2.length = l.length := by
  induction l generalizing x with
  | nil => rfl
  | cons y ys ih =>
    unfold sweep
    split
    · simpa using ih y
    · simpa using ih x

/-- A sweep permutes the carried element together with the tail. -/
theorem sweep_perm (x : Message) (l : List Message) :
    ((sweep x l).1 :: (sweep x l).2).Perm (x :: l) := by
  induction l generalizing x with
  | nil => exact List.Perm.refl _
  | cons y ys ih =>
    unfold sweep
    split
    · exact (List.Perm.swap x (sweep y ys).1 (sweep y ys).2).trans ((ih y).cons x)
    · exact ((List.Perm.swap y (sweep x ys).1 (sweep x ys).2).trans
        ((ih x).cons y)).trans (List.Perm.swap x y ys)

/-- The element a sweep carries out is a minimum of the carried element
and the tail. -/
theorem sweep_min (x : Message) (l : List Message) :
    (sweep x l).1.Timestamp ≤ x.Timestamp ∧
      ∀ z ∈ (sweep x l).2, (sweep x l).1.Timestamp ≤ z.Timestamp := by
  induction l generalizing x with
  | nil => exact ⟨le_refl _, by intro z hz; cases hz⟩
  | cons y ys ih =>
    unfold sweep
    split
    · rename_i hgt
      refine ⟨le_of_lt (lt_of_le_of_lt (ih y).1 hgt), ?_⟩
      intro z hz
      simp only [List.mem_cons] at hz
      rcases hz with rfl | hz
      · exact le_of_lt (lt_of_le_of_lt (ih y).1 hgt)
      · exact (ih y).2 z hz
    · rename_i hle
      push_neg at hle
      refine ⟨(ih x).1, ?_⟩
      intro z hz
      simp only [List.mem_cons] at hz
      rcases hz with rfl | hz
      · exact le_trans (ih x).1 hle
      · exact (ih x).2 z hz

/-- The fueled exchange sort permutes its input when the fuel covers the
length. -/
theorem exchangeSortAux_perm :
    ∀ (n : Nat) (l : List Message), l.length ≤ n → (exchangeSortAux n l).Perm l := by
  intro n
  induction n with
  | zero =>
    intro l hl
    rw [List.length_eq_zero.mp (Nat.le_zero.mp hl)]
    exact List.Perm.refl _
  | succ n ih =>
    intro l hl
    cases l with
    | nil => exact List.Perm.refl _
    | cons x xs =>
      show ((sweep x xs).1 :: exchangeSortAux n (sweep x xs).2).Perm (x :: xs)
      have hlen : (sweep x xs).2.length ≤ n := by
        rw [sweep_length]
        exact Nat.le_of_succ_le_succ hl
      exact ((ih (sweep x xs).2 hlen).cons (sweep x xs).1).trans (sweep_perm x xs)

/-- The fueled exchange sort yields a list sorted ascending by timestamp
when the fuel covers the length. -/
theorem exchangeSortAux_sorted :
    ∀ (n : Nat) (l : List Message), l.length ≤ n →
      List.Pairwise (fun p q : Message => p.Timestamp ≤ q.Timestamp)
        (exchangeSortAux n l) := by
  intro n
  induction n with
  | zero =>
    intro l hl
    rw [List.length_eq_zero.mp (Nat.le_zero.mp hl)]
    exact List.Pairwise.nil
  | succ n ih =>
    intro l hl
    cases l with
    | nil => exact List.Pairwise.nil
    | cons x xs =>
      show List.Pairwise _ ((sweep x xs).1 :: exchangeSortAux n (sweep x xs).2)
      have hlen : (sweep x xs).2.length ≤ n := by
        rw [sweep_length]
        exact Nat.le_of_succ_le_succ hl
      refine List.Pairwise.cons ?_ (ih (sweep x xs).2 hlen)
      intro z hz
      exact (sweep_min x xs).2 z ((exchangeSortAux_perm n (sweep x xs).2 hlen).mem_iff.mp hz)

/-- `exchangeSort` permutes its input. -/
theorem exchangeSort_perm (l : List Message) : (exchangeSort l).Perm l :=
  exchangeSortAux_perm l.length l (le_refl _)

/-- `exchangeSort` sorts ascending by timestamp. -/
theorem exchangeSort_sorted (l : List Message) :
    List.Pairwise (fun p q : Message => p.Timestamp ≤ q.Timestamp) (exchangeSort l) :=
  exchangeSortAux_sorted l.length l (le_refl _)

/-- The replay loop equals one formatted line per non-trigger post, in
list order. -/
theorem contextLines_filter (a : BotAgent) (c : ChatOracle) (trigId : String)
    (l : List Message) :
    contextLines a c trigId l =
      joinStrings ((l.filter (fun p => p.ID != trigId)).map
        (fun p => postSpeaker a c p ++ ": " ++ p.Content ++ "\n")) := by
  induction l with
  | nil => rfl
  | cons p ps ih =>
    by_cases h : p.ID = trigId
    · simp [contextLines, List.filter_cons, h, ih]
    · simp [contextLines, List.filter_cons, h, ih, joinStrings, strAppendAssoc]

/-- Counterexample to C2: with the fetch order `[pA, pB, pC]` where `pA`
and `pB` share timestamp 2 and `pC` has timestamp 1, the exchange sort
yields `[pC, pB, pA]` — the equal-timestamp posts `pA` and `pB` swap their
fetch order — and the assembled transcript shows `pB`'s line ("hi") before
`pA`'s line ("hey").  The sort is therefore not stable. -/
theorem c2_stability_counterexample :
    exchangeSort [pA, pB, pC] = [pC, pB, pA] ∧
    pA.Timestamp = pB.Timestamp ∧
    (getThreadContext wAgent wChatABC wMsgTrigger).1 =
      "Previous conversation context:\n\nalice: yo\nalice: hi\nalice: hey\n\nalice: trigger" := by
  refine ⟨by decide, rfl, by decide⟩

/-- C2 (amended): for every successful thread fetch, the transcript built
by `getThreadContext` lists the fetched posts sorted ascending by
timestamp (a permutation of the fetch result, but NOT necessarily stable
on equal timestamps), excludes the triggering post from the replayed
earlier portion, appends the triggering message last under its own speaker
label, and surfaces no error. -/
theorem c2_transcript_amended (a : BotAgent) (c : ChatOracle) (m : PostedMessage)
    (posts : List Message) (h : c.getThreadMessages (rootOf m) = some posts) :
    (exchangeSort posts).Perm posts ∧
    List.Pairwise (fun p q : Message => p.Timestamp ≤ q.Timestamp) (exchangeSort posts) ∧
    (getThreadContext a c m).1 =
      "Previous conversation context:\n\n" ++
        joinStrings (((exchangeSort posts).filter (fun p => p.ID != m.PostId)).map
          (fun p => postSpeaker a c p ++ ": " ++ p.Content ++ "\n")) ++
        triggerLine c m ∧
    (getThreadContext a c m).2 = none := by
  refine ⟨exchangeSort_perm posts, exchangeSort_sorted posts, ?_, getThreadContext_error_none a c m⟩
  unfold getThreadContext
  rw [h]
  dsimp only
  rw [← contextLines_filter, strAppendAssoc]

/-- Witness for C2 (amended): the three-post fixture. -/
theorem c2_transcript_amended_witness :
    (exchangeSort [pA, pB, pC]).Perm [pA, pB, pC] ∧
    List.Pairwise (fun p q : Message => p.Timestamp ≤ q.Timestamp)
      (exchangeSort [pA, pB, pC]) ∧
    (getThreadContext wAgent wChatABC wMsgTrigger).1 =
      "Previous conversation context:\n\n" ++
        joinStrings (((exchangeSort [pA, pB, pC]).filter
            (fun p => p.ID != wMsgTrigger.PostId)).map
          (fun p => postSpeaker wAgent wChatABC p ++ ": " ++ p.Content ++ "\n")) ++
        triggerLine wChatABC wMsgTrigger ∧
    (getThreadContext wAgent wChatABC wMsgTrigger).2 = none :=
  c2_transcript_amended wAgent wChatABC wMsgTrigger [pA, pB, pC] rfl

/-! ## C5: ActiveThreadSet mutation in the response path -/

/-- The thread-set component of `assignThread` does not depend on the base
message and equals the branch characterization. -/
theorem assignThread_snd (a : BotAgent) (c : ChatOracle) (ts : List String)
    (m : PostedMessage) (base : ChatMessage) :
    (assignThread a c ts m base).2 = threadInsertResult a c ts m := by
  unfold assignThread threadInsertResult
  split
  · rfl
  · split
    · split <;> rfl
    · rfl

/-- Map insertion is idempotent. -/
theorem tsInsert_idem (ts : List String) (k : String) :
    tsInsert (tsInsert ts k) k = tsInsert ts k := by
  unfold tsInsert
  by_cases h : ts.contains k = true
  · have hm : k ∈ ts := by simpa using h
    simp [hm]
  · have hm : k ∉ ts := by simpa using h
    simp [hm]

/-- The response-path thread mutation is idempotent. -/
theorem threadInsertResult_idem (a : BotAgent) (c : ChatOracle)
    (ts : List String) (m : PostedMessage) :
    threadInsertResult a c (threadInsertResult a c ts m) m =
      threadInsertResult a c ts m := by
  unfold threadInsertResult
  split
  · rw [tsInsert_idem]
  · split
    · split
      · rw [tsInsert_idem]
      · rfl
    · rfl

/-- Counterexample to C5: starting from an empty ActiveThreadSet, with a
chat whose `PostMessage` always fails, the non-streaming response path
still inserts the thread id "t1" — posting the reply failed, yet
ActiveThreadSet changed. -/
theorem c5_counterexample :
    (respondWithFallback wAgent wLLMok wChatFail [] wMsgThreaded "prompt").2.2 = false ∧
    (respondWithFallback wAgent wLLMok wChatFail [] wMsgThreaded "prompt").1 = ["t1"] ∧
    (["t1"] : List String) ≠ [] := by
  refine ⟨by decide, by decide, by decide⟩

/-- C5 (amended): in both response paths the ActiveThreadSet mutation is
exactly `threadInsertResult` — insert the thread root of an
already-threaded message, else the post id of an accessible mentioned
root — performed before the post attempt and therefore independent of
whether posting the reply succeeds (the characterization holds for every
chat oracle, failing or not). -/
theorem c5_insertion_amended (a : BotAgent) (llm : LLMOracle) (c : ChatOracle)
    (ts : List String) (m : PostedMessage) (prompt : String) :
    (respondWithFallback a llm c ts m prompt).1 = threadInsertResult a c ts m ∧
    respondWithStream a llm c ts m prompt = threadInsertResult a c ts m := by
  have hfb : ∀ ts0, (respondWithFallback a llm c ts0 m prompt).1 =
      threadInsertResult a c ts0 m := by
    intro ts0
    unfold respondWithFallback
    split <;> (dsimp only; split <;> simp [assignThread_snd])
  refine ⟨hfb ts, ?_⟩
  unfold respondWithStream
  split
  · exact hfb ts
  · dsimp only
    split
    · exact assignThread_snd a c ts m _
    · split
      · split
        · exact assignThread_snd a c ts m _
        · rw [hfb, assignThread_snd, threadInsertResult_idem]
      · rw [hfb, assignThread_snd, threadInsertResult_idem]

/-! ## C4 and C9: the streaming publisher -/

/-- The finalize content is never empty: an empty buffer is replaced by
the fixed non-empty substitute. -/
theorem finalizeContent_ne_empty (s : String) : finalizeContent s ≠ "" := by
  unfold finalizeContent
  split
  · intro h
    exact absurd h (by decide)
  · assumption

/-- After a call sequence ending in a delivered finalize, the message
content is the finalize content. -/
theorem applyCalls_last (init : String) (us : List StreamCall) (f : String) :
    applyCalls init (us ++ [StreamCall.finalize f true]) = f := by
  unfold applyCalls
  rw [List.foldl_append]
  rfl

/-- The core run lemma for the streaming publisher: as soon as the event
trace contains a terminal event, the run is a (possibly empty) prefix of
attempted periodic updates followed by exactly one terminal finalize
attempt whose content is dictated by the delta sequence alone (delivery
outcomes influence retry timing, never the flushed content). -/
theorem processStreamRun_terminates :
    ∀ (events : List StreamEvent) (upd : Nat → Bool) (buffer : String) (lastUpdate k : Nat),
      events.any isTerminalEvent = true →
      ∃ us f ok, processStreamRun upd buffer lastUpdate k events =
          us ++ [StreamCall.finalize f ok] ∧
        (∀ x ∈ us, ∃ s b, x = StreamCall.update s b) ∧
        terminalContent buffer events = some f := by
  intro events
  induction events with
  | nil => intro upd buffer lastUpdate k h; cases h
  | cons e rest ih =>
    intro upd buffer lastUpdate k h
    cases e with
    | closed =>
      refine ⟨[], finalizeContent buffer, upd k, rfl, ?_, rfl⟩
      intro x hx
      cases hx
    | cancel =>
      refine ⟨[], finalizeContent (buffer ++ cancelAnnotation), upd k, rfl, ?_, rfl⟩
      intro x hx
      cases hx
    | chunk ch =>
      by_cases herr : ch.Error.isSome = true
      · refine ⟨[], finalizeContent (buffer ++ errorAnnotation), upd k, ?_, ?_, ?_⟩
        · simp [processStreamRun, herr]
        · intro x hx
          cases hx
        · simp [terminalContent, herr]
      · by_cases hdone : ch.Done = true
        · refine ⟨[], finalizeContent buffer, upd k, ?_, ?_, ?_⟩
          · simp [processStreamRun, herr, hdone]
          · intro x hx
            cases hx
          · simp [terminalContent, herr, hdone]
        · have hrest : rest.any isTerminalEvent = true := by
            simp only [List.any_cons, isTerminalEvent] at h
            simp only [herr, hdone, Bool.false_or] at h
            simpa using h
          obtain ⟨us, f, ok, h1, h2, h3⟩ :=
            ih upd (if ch.Content != "" then buffer ++ ch.Content else buffer) lastUpdate k hrest
          refine ⟨us, f, ok, ?_, h2, ?_⟩
          · simpa [processStreamRun, herr, hdone] using h1
          · simpa [terminalContent, herr, hdone] using h3
    | tick now =>
      have hrest : rest.any isTerminalEvent = true := by
        simpa [isTerminalEvent] using h
      by_cases hcond : lastUpdate + 1 ≤ now ∧ 0 < buffer.length
      · by_cases hupd : upd k = true
        · obtain ⟨us, f, ok, h1, h2, h3⟩ := ih upd buffer now (k + 1) hrest
          refine ⟨StreamCall.update buffer (upd k) :: us, f, ok, ?_, ?_, ?_⟩
          · simp [processStreamRun, hcond, hupd, h1]
          · intro x hx
            rcases List.mem_cons.mp hx with rfl | hx
            · exact ⟨buffer, upd k, rfl⟩
            · exact h2 x hx
          · simpa [terminalContent] using h3
        · obtain ⟨us, f, ok, h1, h2, h3⟩ := ih upd buffer lastUpdate (k + 1) hrest
          refine ⟨StreamCall.update buffer (upd k) :: us, f, ok, ?_, ?_, ?_⟩
          · simp [processStreamRun, hcond, hupd, h1]
          · intro x hx
            rcases List.mem_cons.mp hx with rfl | hx
            · exact ⟨buffer, upd k, rfl⟩
            · exact h2 x hx
          · simpa [terminalContent] using h3
      · obtain ⟨us, f, ok, h1, h2, h3⟩ := ih upd buffer lastUpdate k hrest
        refine ⟨us, f, ok, ?_, h2, ?_⟩
        · simpa [processStreamRun, hcond] using h1
        · simpa [terminalContent] using h3

/-- The content of any terminal flush is non-empty. -/
theorem terminalContent_ne_empty :
    ∀ (evs : List StreamEvent) (b : String) (g : String),
      terminalContent b evs = some g → g ≠ "" := by
  intro evs
  induction evs with
  | nil => intro b g hg; cases hg
  | cons e rest ihe =>
    intro b g hg
    cases e with
    | closed =>
      cases hg
      exact finalizeContent_ne_empty _
    | cancel =>
      cases hg
      exact finalizeContent_ne_empty _
    | tick now => exact ihe b g hg
    | chunk ch =>
      by_cases herr : ch.Error.isSome = true
      · simp [terminalContent, herr] at hg
        rw [← hg]
        exact finalizeContent_ne_empty _
      · by_cases hdone : ch.Done = true
        · simp [terminalContent, herr, hdone] at hg
          rw [← hg]
          exact finalizeContent_ne_empty _
        · simp only [terminalContent, herr, hdone] at hg
          exact ihe _ g (by simpa using hg)

/-- Counterexample to C4: with a chat transport whose `UpdateMessage`
always fails, a session whose channel closes performs its one terminal
flush attempt, but the delivery fails (`finalizeStreamResponse` only logs
the `UpdateMessage` error), and the placeholder message
still reads "_Thinking..._" after termination — the program does not
guarantee that the placeholder never retains its initial content. -/
theorem c4_counterexample :
    processStream (fun _ => false) [StreamEvent.closed] 0 =
      [StreamCall.finalize noResponseText false] ∧
    applyCalls thinkingText (processStream (fun _ => false) [StreamEvent.closed] 0) =
      thinkingText :=
  ⟨by decide, by decide⟩

/-- C4 (amended): for every streaming session whose event trace contains a
terminal event (normal close, done delta, error delta, or cancellation —
the 5-minute deadline supplies one in every real run) and every transport
behavior, `processStream` attempts exactly one terminal flush: the run is
a prefix of periodic update attempts followed by a single finalize whose
content is dictated by the delta sequence (error/cancellation annotations
appended, per `terminalContent`) and is never empty; when the terminal
`UpdateMessage` delivery succeeds, the placeholder afterwards holds that
finalize content instead of its initial "_Thinking..._" — a failed
delivery, however, can leave the placeholder unchanged. -/
theorem c4_stream_termination_amended (upd : Nat → Bool) (events : List StreamEvent)
    (start : Nat) (h : events.any isTerminalEvent = true) :
    ∃ us f ok, processStream upd events start = us ++ [StreamCall.finalize f ok] ∧
      (∀ x ∈ us, ∃ s b, x = StreamCall.update s b) ∧
      terminalContent "" events = some f ∧
      f ≠ "" ∧
      (ok = true → applyCalls thinkingText (processStream upd events start) = f) := by
  obtain ⟨us, f, ok, h1, h2, h3⟩ := processStreamRun_terminates events upd "" start 0 h
  refine ⟨us, f, ok, h1, h2, h3, terminalContent_ne_empty events "" f h3, ?_⟩
  intro hok
  show applyCalls thinkingText (processStream upd events start) = f
  unfold processStream
  rw [h1, hok]
  exact applyCalls_last _ us f

/-- Witness for C4 (amended): an always-delivering transport, one delta
and a normal close. -/
theorem c4_stream_termination_amended_witness :
    ∃ us f ok, processStream (fun _ => true)
        [StreamEvent.chunk { Content := "Hi", Done := false, Error := none },
         StreamEvent.closed] 0 = us ++ [StreamCall.finalize f ok] ∧
      (∀ x ∈ us, ∃ s b, x = StreamCall.update s b) ∧
      terminalContent "" [StreamEvent.chunk { Content := "Hi", Done := false, Error := none },
        StreamEvent.closed] = some f ∧
      f ≠ "" ∧
      (ok = true → applyCalls thinkingText (processStream (fun _ => true)
        [StreamEvent.chunk { Content := "Hi", Done := false, Error := none },
         StreamEvent.closed] 0) = f) :=
  c4_stream_termination_amended (fun _ => true) _ 0 (by decide)

/-- Counterexample to C9: with an always-delivering transport, after the
delta "Hello" a first tick at second 1 flushes the buffer, and a second
tick at second 2 — with NO new content having arrived since that
successful flush — pushes another, identical update: the code only checks
elapsed time and buffer non-emptiness, not growth since the last flush. -/
theorem c9_counterexample :
    processStream (fun _ => true)
      [StreamEvent.chunk { Content := "Hello", Done := false, Error := none },
        StreamEvent.tick 1, StreamEvent.tick 2, StreamEvent.closed] 0 =
      [StreamCall.update "Hello" true, StreamCall.update "Hello" true,
        StreamCall.finalize "Hello" true] := by
  decide

/-- C9 (amended): on each 1-second tick an update carrying the full
current buffer (a full-replace update, not an append) is attempted exactly
when at least the 1-second interval has elapsed since the last successful
flush AND the buffer is non-empty — growth since the last flush is not
checked, so an unchanged non-empty buffer is re-pushed; the last-flush
time advances only when the delivery succeeds, so a failed update is
retried on the next due tick; a tick with an empty buffer or arriving less
than a second after the last successful flush attempts no update; and
every attempted update carries non-empty content. -/
theorem c9_tick_update_amended :
    (∀ (upd : Nat → Bool) (buffer : String) (lastUpdate k now : Nat)
        (rest : List StreamEvent),
      lastUpdate + 1 ≤ now ∧ 0 < buffer.length → upd k = true →
      processStreamRun upd buffer lastUpdate k (StreamEvent.tick now :: rest) =
        StreamCall.update buffer true ::
          processStreamRun upd buffer now (k + 1) rest) ∧
    (∀ (upd : Nat → Bool) (buffer : String) (lastUpdate k now : Nat)
        (rest : List StreamEvent),
      lastUpdate + 1 ≤ now ∧ 0 < buffer.length → upd k = false →
      processStreamRun upd buffer lastUpdate k (StreamEvent.tick now :: rest) =
        StreamCall.update buffer false ::
          processStreamRun upd buffer lastUpdate (k + 1) rest) ∧
    (∀ (upd : Nat → Bool) (buffer : String) (lastUpdate k now : Nat)
        (rest : List StreamEvent),
      ¬(lastUpdate + 1 ≤ now ∧ 0 < buffer.length) →
      processStreamRun upd buffer lastUpdate k (StreamEvent.tick now :: rest) =
        processStreamRun upd buffer lastUpdate k rest) ∧
    (∀ (upd : Nat → Bool) (buffer : String) (lastUpdate k : Nat)
        (events : List StreamEvent) (s : String) (b : Bool),
      StreamCall.update s b ∈ processStreamRun upd buffer lastUpdate k events →
        s ≠ "") := by
  refine ⟨?_, ?_, ?_, ?_⟩
  · intro upd buffer lastUpdate k now rest hcond hupd
    simp [processStreamRun, hcond, hupd]
  · intro upd buffer lastUpdate k now rest hcond hupd
    simp [processStreamRun, hcond, hupd]
  · intro upd buffer lastUpdate k now rest hcond
    simp [processStreamRun, hcond]
  · intro upd buffer lastUpdate k events
    induction events generalizing buffer lastUpdate k with
    | nil => intro s b hs; cases hs
    | cons e rest ih =>
      intro s b hs
      cases e with
      | closed =>
        rcases List.mem_singleton.mp hs with h
        cases h
      | cancel =>
        rcases List.mem_singleton.mp hs with h
        cases h
      | chunk ch =>
        by_cases herr : ch.Error.isSome = true
        · simp [processStreamRun, herr] at hs
        · by_cases hdone : ch.Done = true
          · simp [processStreamRun, herr, hdone] at hs
          · simp only [processStreamRun, herr, hdone] at hs
            exact ih _ _ _ s b (by simpa using hs)
      | tick now =>
        by_cases hcond : lastUpdate + 1 ≤ now ∧ 0 < buffer.length
        · simp only [processStreamRun, if_pos hcond] at hs
          rcases List.mem_cons.mp hs with heq | hs
          · cases heq
            intro hempty
            rw [hempty] at hcond
            exact absurd hcond.2 (by decide)
          · by_cases hupd : upd k = true
            · rw [if_pos hupd] at hs
              exact ih _ _ _ s b hs
            · rw [if_neg hupd] at hs
              exact ih _ _ _ s b hs
        · simp only [processStreamRun, if_neg hcond] at hs
          exact ih _ _ _ s b hs

/-- Witness for C9 (amended): a due tick with content attempts the update
(advancing the flush time on success, retaining it on failure); a
premature tick attempts none; an attempted update is non-empty. -/
theorem c9_tick_update_amended_witness :
    processStreamRun (fun _ => true) "Hi" 0 0 [StreamEvent.tick 1] =
      StreamCall.update "Hi" true :: processStreamRun (fun _ => true) "Hi" 1 1 [] ∧
    processStreamRun (fun _ => false) "Hi" 0 0 [StreamEvent.tick 1] =
      StreamCall.update "Hi" false :: processStreamRun (fun _ => false) "Hi" 0 1 [] ∧
    processStreamRun (fun _ => true) "Hi" 0 0 [StreamEvent.tick 0] =
      processStreamRun (fun _ => true) "Hi" 0 0 [] ∧
    ("Hi" : String) ≠ "" :=
  ⟨c9_tick_update_amended.1 (fun _ => true) "Hi" 0 0 1 [] (by decide) rfl,
   c9_tick_update_amended.2.1 (fun _ => false) "Hi" 0 0 1 [] (by decide) rfl,
   c9_tick_update_amended.2.2.1 (fun _ => true) "Hi" 0 0 0 [] (by decide),
   c9_tick_update_amended.2.2.2 (fun _ => true) "Hi" 0 0 [StreamEvent.tick 1] "Hi" true
     (by decide)⟩

/-! ## C6: the orchestrator conversation loop -/

/-- The loop run lemma: through any prefix of rounds that each dispatch at
least one tool, the loop keeps accumulating text; it stops at the first
round with no tool invocation, returning the finalized concatenation.  The
trailing trace is never consulted. -/
theorem promptLoop_run (tools : ToolOracle) (pre : List (List ContentBlock))
    (last : List ContentBlock) (rest : List (Except String (List ContentBlock)))
    (hpre : ∀ bs ∈ pre, (toolResultsOf tools bs).length ≠ 0)
    (hlast : (toolResultsOf tools last).length = 0) :
    ∀ acc, promptLoop tools acc (pre.map Except.ok ++ Except.ok last :: rest) =
      PromptOutcome.ok (finalizePromptResult (acc ++ textsConcat (pre ++ [last]))) := by
  induction pre with
  | nil =>
    intro acc
    simp only [List.map_nil, List.nil_append, promptLoop, hlast, if_pos]
    rw [show textsConcat [last] = textsOf last ++ "" from rfl, strAppendNil]
  | cons bs pre ih =>
    intro acc
    have hbs : (toolResultsOf tools bs).length ≠ 0 := hpre bs (List.mem_cons_self bs pre)
    have hpre2 : ∀ b ∈ pre, (toolResultsOf tools b).length ≠ 0 := by
      intro b hb
      exact hpre b (List.mem_cons_of_mem bs hb)
    simp only [List.map_cons, List.cons_append, promptLoop, List.append_eq]
    rw [if_neg hbs, ih hpre2 (acc ++ textsOf bs)]
    rw [show textsConcat (bs :: (pre ++ [last])) =
      textsOf bs ++ textsConcat (pre ++ [last]) from rfl, ← strAppendAssoc]

/-- C6: in an error-free run, the `Prompt` loop repeats exactly while each
round dispatches at least one tool invocation (builds a non-empty
`toolResults`), terminates at the first round with none, and returns the
concatenation, in order, of all plain-text segments seen across all
rounds; when that concatenation is empty it returns the fixed non-empty
fallback phrase instead. -/
theorem c6_orchestrator_loop (tools : ToolOracle) (pre : List (List ContentBlock))
    (last : List ContentBlock) (rest : List (Except String (List ContentBlock)))
    (hpre : ∀ bs ∈ pre, (toolResultsOf tools bs).length ≠ 0)
    (hlast : (toolResultsOf tools last).length = 0) :
    Prompt tools (pre.map Except.ok ++ Except.ok last :: rest) =
      PromptOutcome.ok (finalizePromptResult (textsConcat (pre ++ [last]))) ∧
    (textsConcat (pre ++ [last]) = "" →
      Prompt tools (pre.map Except.ok ++ Except.ok last :: rest) =
        PromptOutcome.ok promptFallbackText) ∧
    promptFallbackText ≠ "" := by
  have hrun := promptLoop_run tools pre last rest hpre hlast ""
  have hmain : Prompt tools (pre.map Except.ok ++ Except.ok last :: rest) =
      PromptOutcome.ok (finalizePromptResult (textsConcat (pre ++ [last]))) := hrun
  refine ⟨hmain, ?_, by decide⟩
  intro hempty
  rw [hmain, hempty]
  rfl

/-- Witness for C6: one round dispatching a tool and emitting "A",
followed by a tool-free round emitting "B", gives reply "AB". -/
theorem c6_orchestrator_loop_witness :
    Prompt wTools ([[ContentBlock.toolUse "id1" "list_asana_projects" "in",
        ContentBlock.text "A"]].map Except.ok ++
        Except.ok [ContentBlock.text "B"] :: []) =
      PromptOutcome.ok (finalizePromptResult
        (textsConcat ([[ContentBlock.toolUse "id1" "list_asana_projects" "in",
          ContentBlock.text "A"]] ++ [[ContentBlock.text "B"]]))) ∧
    (textsConcat ([[ContentBlock.toolUse "id1" "list_asana_projects" "in",
        ContentBlock.text "A"]] ++ [[ContentBlock.text "B"]]) = "" →
      Prompt wTools ([[ContentBlock.toolUse "id1" "list_asana_projects" "in",
          ContentBlock.text "A"]].map Except.ok ++
          Except.ok [ContentBlock.text "B"] :: []) =
        PromptOutcome.ok promptFallbackText) ∧
    promptFallbackText ≠ "" :=
  c6_orchestrator_loop wTools
    [[ContentBlock.toolUse "id1" "list_asana_projects" "in", ContentBlock.text "A"]]
    [ContentBlock.text "B"] []
    (by intro bs hbs
        rcases List.mem_singleton.mp hbs with rfl
        decide)
    (by decide)

/-! ## C10: the simulated streaming backend refines the synchronous call -/

/-- Concatenating the slices reproduces the sliced list. -/
theorem chunks10Aux_join :
    ∀ (n : Nat) (l : List Char), l.length ≤ n → (chunks10Aux n l).flatten = l := by
  intro n
  induction n with
  | zero =>
    intro l hl
    rw [List.length_eq_zero.mp (Nat.le_zero.mp hl)]
    rfl
  | succ n ih =>
    intro l hl
    cases l with
    | nil => rfl
    | cons c cs =>
      show (c :: cs).take 10 ++ (chunks10Aux n ((c :: cs).drop 10)).flatten = c :: cs
      rw [ih _ (by rw [List.length_drop]; simp only [List.length_cons] at hl ⊢; omega),
        List.take_append_drop]

/-- Every slice holds at most 10 characters. -/
theorem chunks10Aux_short :
    ∀ (n : Nat) (l : List Char) (p : List Char), p ∈ chunks10Aux n l → p.length ≤ 10 := by
  intro n
  induction n with
  | zero => intro l p hp; cases hp
  | succ n ih =>
    intro l p hp
    cases l with
    | nil => cases hp
    | cons c cs =>
      rcases List.mem_cons.mp hp with rfl | hp
      · rw [List.length_take]
        exact min_le_left _ _
      · exact ih _ p hp

/-- Joining the `String` images of slices equals the `String` of the
joined slices. -/
theorem joinStrings_mk :
    ∀ ls : List (List Char),
      joinStrings (ls.map (fun d => String.mk d)) = String.mk ls.flatten := by
  intro ls
  induction ls with
  | nil => rfl
  | cons a rest ih =>
    show String.mk a ++ joinStrings (rest.map (fun d => String.mk d)) =
      String.mk (a ++ rest.flatten)
    rw [ih]
    rfl

/-- C10: on a prompt whose synchronous `Prompt` call succeeds with text
`r` (and with no cancellation, which the pure chunk model assumes), the
chunk sequence of `PromptStream` is a body of non-done, non-error chunks
of at most 10 characters each whose contents concatenate, in order, to
`r`, followed by exactly one terminal chunk with the done flag set and a
nil error. -/
theorem c10_stream_refines (r : String) :
    ∃ body, promptStreamChunks (Except.ok r) =
        body ++ [{ Content := "", Done := true, Error := none }] ∧
      (∀ ch ∈ body, ch.Done = false ∧ ch.Error = none ∧ ch.Content.length ≤ 10) ∧
      joinStrings (body.map StreamChunk.Content) = r ∧
      ((promptStreamChunks (Except.ok r)).filter (fun ch => ch.Done)).length = 1 := by
  cases r with
  | mk d =>
    refine ⟨(chunks10 d).map
        (fun piece => { Content := String.mk piece, Done := false, Error := none }),
      rfl, ?_, ?_, ?_⟩
    · intro ch hch
      rcases List.mem_map.mp hch with ⟨piece, hp, rfl⟩
      exact ⟨rfl, rfl, chunks10Aux_short d.length d piece hp⟩
    · rw [List.map_map]
      show joinStrings ((chunks10 d).map (fun piece => String.mk piece)) = String.mk d
      rw [joinStrings_mk]
      show String.mk (chunks10Aux d.length d).flatten = String.mk d
      rw [chunks10Aux_join d.length d (le_refl _)]
    · show ((promptStreamChunks (Except.ok (String.mk d))).filter
        (fun ch => ch.Done)).length = 1
      unfold promptStreamChunks
      rw [List.filter_append]
      have hbody : ((chunks10 d).map
          (fun piece => ({ Content := String.mk piece, Done := false, Error := none }
            : StreamChunk))).filter (fun ch => ch.Done) = [] := by
        rw [List.filter_eq_nil_iff]
        intro ch hch
        rcases List.mem_map.mp hch with ⟨piece, hp, rfl⟩
        simp
      rw [hbody]
      rfl

/-- Witness for C10: the 12-character reply "hello world!". -/
theorem c10_stream_refines_witness :
    ∃ body, promptStreamChunks (Except.ok "hello world!") =
        body ++ [{ Content := "", Done := true, Error := none }] ∧
      (∀ ch ∈ body, ch.Done = false ∧ ch.Error = none ∧ ch.Content.length ≤ 10) ∧
      joinStrings (body.map StreamChunk.Content) = "hello world!" ∧
      ((promptStreamChunks (Except.ok "hello world!")).filter
        (fun ch => ch.Done)).length = 1 :=
  c10_stream_refines "hello world!"
